import Mathlib

/-
  Verification development for the Scrapegraph-ai custom pipeline
  (MyNodes: db_manager, email_link_node, pdf_fetch_node,
  pdf_to_markdown_node, document_classify_node, document_summary_node).

  The Python sources are shallowly embedded: pure helpers become Lean
  functions on List Char / String, the SQLite table becomes an explicit
  list-of-rows state, filesystem and network effects become explicit
  oracle environments, and exceptions become Except values.
  String predicates (strip, isupper, title, lower) are modelled with
  ASCII casing, which agrees with Python on the inputs at issue.
-/

namespace Scrapegraph

/-! ## Python string primitives -/

/-- Python whitespace test for str.strip (ASCII whitespace set). -/
def pySpace (c : Char) : Bool :=
  c = ' ' || c = '\t' || c = '\n' || c = '\x0d' || c = '\x0b' || c = '\x0c'

/-- Python str.strip on a character list: drop whitespace on both ends. -/
def pyStrip (l : List Char) : List Char :=
  ((l.dropWhile pySpace).reverse.dropWhile pySpace).reverse

/-- Cased character (ASCII model): an upper or lower case letter. -/
def pyCased (c : Char) : Bool := c.isUpper || c.isLower

/-- Python str.isupper: at least one cased character and no lowercase one. -/
def pyIsUpper (l : List Char) : Bool :=
  l.any pyCased && l.all (fun c => !c.isLower)

/-- Worker for str.title: tracks whether the previous character was cased. -/
def pyTitleGo : Bool → List Char → List Char
  | _, [] => []
  | prevCased, c :: rest =>
      if pyCased c then
        (if prevCased then c.toLower else c.toUpper) :: pyTitleGo true rest
      else
        c :: pyTitleGo false rest

/-- Python str.title: first cased character of each run is uppercased,
    the following cased characters are lowercased. -/
def pyTitle (l : List Char) : List Char := pyTitleGo false l

/-- Line-break characters recognised by Python str.splitlines. -/
def pyLineBreak (c : Char) : Bool :=
  c = '\n' || c = '\x0d' || c = '\x0b' || c = '\x0c' ||
  c = '\x1c' || c = '\x1d' || c = '\x1e' || c = '\x85' ||
  c = '\u2028' || c = '\u2029'

/-- Worker for str.splitlines, carrying the reversed current line. -/
def pySplitlinesGo (acc : List Char) : List Char → List (List Char)
  | [] => if acc = [] then [] else [acc.reverse]
  | '\x0d' :: '\n' :: rest => acc.reverse :: pySplitlinesGo [] rest
  | c :: rest =>
      if pyLineBreak c then acc.reverse :: pySplitlinesGo [] rest
      else pySplitlinesGo (c :: acc) rest

/-- Python str.splitlines (no keepends): a trailing break adds no line. -/
def pySplitlines (l : List Char) : List (List Char) := pySplitlinesGo [] l

/-- Boolean list prefix test, used for startswith on strings and bytes. -/
def isPrefixL {α : Type} [DecidableEq α] : List α → List α → Bool
  | [], _ => true
  | _ :: _, [] => false
  | a :: as, b :: bs => a = b && isPrefixL as bs

/-- Python substring containment (the in operator on str). -/
def containsSub (needle : List Char) : List Char → Bool
  | [] => isPrefixL needle []
  | c :: t => isPrefixL needle (c :: t) || containsSub needle t

/-- Python str.lower (ASCII model). -/
def toLowerL (l : List Char) : List Char := l.map Char.toLower

/-- Python str.rstrip with an explicit character set. -/
def rstripSet (set : List Char) (l : List Char) : List Char :=
  (l.reverse.dropWhile (fun c => set.contains c)).reverse

/-- Order-preserving deduplication, as dict.fromkeys does on a list. -/
def dedupKeepFirst : List String → List String
  | [] => []
  | s :: rest =>
      s :: (dedupKeepFirst rest).filter (fun t => t ≠ s)

/-! ## Record store (db_manager.py)

    The AIpaper table becomes a list of rows plus the next AUTOINCREMENT
    id.  SELECT ... WHERE urlLink = ? returns the first row in rowid
    order, which is insertion order here. -/

/-- Row of the AIpaper table (dataclass AIPaper in db_manager.py). -/
structure AIPaper where
  id : Option Nat
  urlLink : String
  pdfLink : Option String
  mdLink : Option String
  summaryLink : Option String
  meta : Option String
  publishTime : Option String
  subject : Option String
deriving DecidableEq, Repr

/-- State of the AIpaper table. -/
structure PaperDB where
  rows : List AIPaper
  nextId : Nat
deriving DecidableEq, Repr

/-- DatabaseManager.insert_paper: the id column is assigned by
    AUTOINCREMENT; the fresh id is returned. -/
def insert_paper (db : PaperDB) (p : AIPaper) : PaperDB × Nat :=
  ({ rows := db.rows ++ [{ p with id := some db.nextId }],
     nextId := db.nextId + 1 }, db.nextId)

/-- DatabaseManager.find_by_url: SELECT * FROM AIpaper WHERE urlLink = ?
    and fetchone, i.e. the first matching row. -/
def find_by_url (db : PaperDB) (url : String) : Option AIPaper :=
  db.rows.find? (fun r => r.urlLink = url)

/-- Field map for update_fields: a key is present when the Python dict
    names the column.  Nullable columns carry Option String values. -/
structure FieldMap where
  urlLink : Option String := none
  pdfLink : Option (Option String) := none
  mdLink : Option (Option String) := none
  summaryLink : Option (Option String) := none
  meta : Option (Option String) := none
  publishTime : Option (Option String) := none
  subject : Option (Option String) := none
deriving DecidableEq, Repr

/-- Effect of one SQL SET clause list on one row: exactly the named
    columns are overwritten. -/
def applyFields (r : AIPaper) (m : FieldMap) : AIPaper :=
  { r with
    urlLink := m.urlLink.getD r.urlLink
    pdfLink := m.pdfLink.getD r.pdfLink
    mdLink := m.mdLink.getD r.mdLink
    summaryLink := m.summaryLink.getD r.summaryLink
    meta := m.meta.getD r.meta
    publishTime := m.publishTime.getD r.publishTime
    subject := m.subject.getD r.subject }

/-- DatabaseManager.update_fields: UPDATE AIpaper SET ... WHERE id = ?. -/
def update_fields (db : PaperDB) (paperId : Nat) (m : FieldMap) : PaperDB :=
  { db with rows := db.rows.map (fun r => if r.id = some paperId then applyFields r m else r) }

/-- Number of rows holding a given urlLink. -/
def countUrl (db : PaperDB) (url : String) : Nat :=
  (db.rows.filter (fun r => r.urlLink = url)).length

/-! ## Harvester record creation (email_link_node.py execute loop)

    For one extracted URL the loop looks the URL up, reuses the existing
    row if found, and otherwise inserts a fresh row with only urlLink
    set; the in-memory paper receives the assigned id. -/

/-- Fresh record built by EmailLinkNode.execute before insertion. -/
def freshPaper (url : String) : AIPaper :=
  { id := none, urlLink := url, pdfLink := none, mdLink := none,
    summaryLink := none, meta := none, publishTime := none, subject := none }

/-- One iteration of the URL loop in EmailLinkNode.execute. -/
def processUrl (db : PaperDB) (papers : List AIPaper) (url : String) :
    PaperDB × List AIPaper :=
  match find_by_url db url with
  | some existing => (db, papers ++ [existing])
  | none =>
      let res := insert_paper db (freshPaper url)
      (res.1, papers ++ [{ freshPaper url with id := some res.2 }])

/-! ## Helper lemmas on the store -/

theorem find_by_url_eq_none_iff (db : PaperDB) (url : String) :
    find_by_url db url = none ↔ ∀ r ∈ db.rows, r.urlLink ≠ url := by
  unfold find_by_url
  rw [List.find?_eq_none]
  constructor
  · intro h r hr
    have := h r hr
    simpa using this
  · intro h r hr
    simpa using h r hr

theorem countUrl_eq_zero_of_find_none (db : PaperDB) (url : String)
    (h : find_by_url db url = none) : countUrl db url = 0 := by
  unfold countUrl
  rw [List.length_eq_zero, List.filter_eq_nil_iff]
  intro r hr
  have := (find_by_url_eq_none_iff db url).mp h r hr
  simpa using this

theorem find_append_none {l₁ l₂ : List AIPaper} {p : AIPaper → Bool}
    (h : l₁.find? p = none) : (l₁ ++ l₂).find? p = l₂.find? p := by
  induction l₁ with
  | nil => simp
  | cons a as ih =>
      cases hpa : p a with
      | true =>
          rw [List.find?_cons_of_pos _ hpa] at h
          exact absurd h (by simp)
      | false =>
          rw [List.find?_cons_of_neg _ (by simp [hpa])] at h
          rw [List.cons_append, List.find?_cons_of_neg _ (by simp [hpa])]
          exact ih h

/-- The branch of the harvester loop that reuses an existing record. -/
theorem processUrl_found {db : PaperDB} {u : String} {r : AIPaper}
    (papers : List AIPaper) (h : find_by_url db u = some r) :
    processUrl db papers u = (db, papers ++ [r]) := by
  unfold processUrl
  rw [h]

/-- Frame lemma for update_fields: the row list keeps its length, rows
    with another id are untouched, and unnamed columns keep their
    values on the matching rows. -/
theorem update_fields_frame (db : PaperDB) (paperId : Nat) (m : FieldMap)
    (i : Nat) (hi : i < db.rows.length) :
    (update_fields db paperId m).rows.length = db.rows.length ∧
    ((update_fields db paperId m).rows.get
        ⟨i, by simpa [update_fields] using hi⟩ =
      (if (db.rows.get ⟨i, hi⟩).id = some paperId
        then applyFields (db.rows.get ⟨i, hi⟩) m
        else db.rows.get ⟨i, hi⟩)) := by
  constructor
  · simp [update_fields]
  · simp [update_fields]

/-- Record id is never altered by applyFields: the update map carries no
    id column. -/
theorem applyFields_id (r : AIPaper) (m : FieldMap) :
    (applyFields r m).id = r.id := rfl

/-! ## Claim C1 -/

/-- C1: once the harvester has created a record for a URL, processing the
    same URL again (in this run or any later state containing the record)
    reuses the existing record: the store keeps exactly one row for that
    URL, no second insertion happens, and find_by_url keeps returning the
    id assigned at the first insertion. -/
theorem harvester_url_dedup (db : PaperDB) (papers : List AIPaper)
    (u : String) (h : find_by_url db u = none) :
    (countUrl (processUrl db papers u).1 u = 1) ∧
    (∃ r, find_by_url (processUrl db papers u).1 u = some r ∧
            r.id = some db.nextId ∧ r.urlLink = u ∧
        (∀ db₂ papers₂, find_by_url db₂ u = some r →
            processUrl db₂ papers₂ u = (db₂, papers₂ ++ [r]))) ∧
    (processUrl (processUrl db papers u).1
        (processUrl db papers u).2 u).1 = (processUrl db papers u).1 := by
  have hnone : db.rows.find? (fun r => decide (r.urlLink = u)) = none := h
  have hbase : ∀ r ∈ db.rows, r.urlLink ≠ u :=
    (find_by_url_eq_none_iff db u).mp h
  -- the first processing inserts one fresh row
  have hstep : processUrl db papers u =
      ((insert_paper db (freshPaper u)).1,
        papers ++ [{ freshPaper u with id := some db.nextId }]) := by
    unfold processUrl
    rw [h]
    rfl
  have hrows : (processUrl db papers u).1.rows =
      db.rows ++ [{ freshPaper u with id := some db.nextId }] := by
    rw [hstep]
    rfl
  have hfind : find_by_url (processUrl db papers u).1 u =
      some { freshPaper u with id := some db.nextId } := by
    unfold find_by_url
    rw [hrows, find_append_none hnone]
    simp [freshPaper]
  refine ⟨?_, ⟨{ freshPaper u with id := some db.nextId }, hfind, rfl, rfl, ?_⟩, ?_⟩
  · -- exactly one matching row after the insertion
    unfold countUrl
    rw [hrows, List.filter_append]
    have h1 : db.rows.filter (fun r => decide (r.urlLink = u)) = [] := by
      rw [List.filter_eq_nil_iff]
      intro r hr
      simpa using hbase r hr
    rw [h1]
    simp [freshPaper]
  · -- any later processing that finds the record reuses it verbatim
    intro db₂ papers₂ hfound
    exact processUrl_found papers₂ hfound
  · -- the second processing does not change the store
    rw [processUrl_found (processUrl db papers u).2 hfind]

/-- Witness for C1 at a concrete store and URL. -/
theorem harvester_url_dedup_witness :
    (find_by_url { rows := [], nextId := 1 } "https://a.example/p" = none) ∧
    (countUrl (processUrl { rows := [], nextId := 1 } []
        "https://a.example/p").1 "https://a.example/p" = 1) := by
  refine ⟨by decide, ?_⟩
  exact (harvester_url_dedup { rows := [], nextId := 1 } []
    "https://a.example/p" (by decide)).1

/-! ## Claim C2 -/

/-- Update map that names only the subject column. -/
def subjectOnlyMap (v : Option String) : FieldMap := { subject := some v }

/-- C2: update_fields changes only the columns named in the map: rows
    with a different id are unchanged, and on the matching row every
    unnamed column keeps its prior value; in particular a subject-only
    update leaves pdfLink, mdLink, summaryLink, meta and publishTime
    untouched, and the id column is never altered. -/
theorem update_fields_partial_merge (db : PaperDB) (paperId : Nat)
    (m : FieldMap) (i : Nat) (hi : i < db.rows.length)
    (hi2 : i < (update_fields db paperId m).rows.length) :
    (update_fields db paperId m).rows.length = db.rows.length ∧
    ((update_fields db paperId m).rows[i].id = db.rows[i].id) ∧
    (db.rows[i].id ≠ some paperId →
        (update_fields db paperId m).rows[i] = db.rows[i]) ∧
    (m.urlLink = none →
        (update_fields db paperId m).rows[i].urlLink = db.rows[i].urlLink) ∧
    (m.pdfLink = none →
        (update_fields db paperId m).rows[i].pdfLink = db.rows[i].pdfLink) ∧
    (m.mdLink = none →
        (update_fields db paperId m).rows[i].mdLink = db.rows[i].mdLink) ∧
    (m.summaryLink = none →
        (update_fields db paperId m).rows[i].summaryLink = db.rows[i].summaryLink) ∧
    (m.meta = none →
        (update_fields db paperId m).rows[i].meta = db.rows[i].meta) ∧
    (m.publishTime = none →
        (update_fields db paperId m).rows[i].publishTime = db.rows[i].publishTime) ∧
    (m.subject = none →
        (update_fields db paperId m).rows[i].subject = db.rows[i].subject) ∧
    (∀ v (hv : i < (update_fields db paperId (subjectOnlyMap v)).rows.length),
      (update_fields db paperId (subjectOnlyMap v)).rows[i].pdfLink = db.rows[i].pdfLink ∧
      (update_fields db paperId (subjectOnlyMap v)).rows[i].mdLink = db.rows[i].mdLink ∧
      (update_fields db paperId (subjectOnlyMap v)).rows[i].summaryLink
        = db.rows[i].summaryLink ∧
      (update_fields db paperId (subjectOnlyMap v)).rows[i].meta = db.rows[i].meta ∧
      (update_fields db paperId (subjectOnlyMap v)).rows[i].publishTime
        = db.rows[i].publishTime) := by
  have hrow : ∀ (m' : FieldMap)
      (h2 : i < (update_fields db paperId m').rows.length),
      (update_fields db paperId m').rows[i] =
        (if db.rows[i].id = some paperId
          then applyFields db.rows[i] m' else db.rows[i]) := by
    intro m' h2
    simp [update_fields]
  refine ⟨by simp [update_fields], ?_, ?_, ?_, ?_, ?_, ?_, ?_, ?_, ?_, ?_⟩
  · rw [hrow m hi2]
    by_cases hid : db.rows[i].id = some paperId <;> simp [hid, applyFields]
  · intro hne
    rw [hrow m hi2]
    simp [hne]
  all_goals
    first
    | (intro hm
       rw [hrow m hi2]
       by_cases hid : db.rows[i].id = some paperId <;>
         simp [hid, applyFields, hm])
    | (intro v hv
       rw [hrow (subjectOnlyMap v) hv]
       by_cases hid : db.rows[i].id = some paperId <;>
         simp [hid, applyFields, subjectOnlyMap])

/-- Concrete row used by the C2 witness. -/
def sampleRow : AIPaper where
  id := some 1
  urlLink := "u"
  pdfLink := some "p.pdf"
  mdLink := some "p.md"
  summaryLink := some "p.summary.md"
  meta := some "m"
  publishTime := some "2024"
  subject := none

/-- Concrete one-row store used by the C2 witness. -/
def sampleDB : PaperDB where
  rows := [sampleRow]
  nextId := 2

/-- Witness for C2 on a one-row store with a subject-only update. -/
theorem update_fields_partial_merge_witness :
    (update_fields sampleDB 1 (subjectOnlyMap (some "fintech"))).rows.length
      = sampleDB.rows.length := by
  exact (update_fields_partial_merge sampleDB 1
    (subjectOnlyMap (some "fintech")) 0 (by decide) (by decide)).1

/-! ## URL extraction (EmailLinkNode._extract_urls)

    Python scans the text with the regular expression
    https?://[^whitespace<>quote]+ via re.findall (leftmost,
    non-overlapping), keeps matches starting with a scheme, strips
    trailing punctuation, and deduplicates keeping first occurrences. -/

/-- Characters allowed in the URL body: not whitespace, angle bracket or
    double quote (the negated class of the pattern). -/
def urlBodyChar (c : Char) : Bool :=
  !(pySpace c) && c ≠ '<' && c ≠ '>' && c ≠ '"'

/-- Attempt to match https?://[body]+ at the head of the character list.
    Returns the matched characters and the remaining suffix. -/
def matchUrlAt : List Char → Option (List Char × List Char)
  | 'h' :: 't' :: 't' :: 'p' :: rest =>
      match rest with
      | 's' :: ':' :: '/' :: '/' :: r =>
          let body := r.takeWhile urlBodyChar
          if body = [] then none
          else some ('h' :: 't' :: 't' :: 'p' :: 's' :: ':' :: '/' :: '/' :: body,
            r.dropWhile urlBodyChar)
      | ':' :: '/' :: '/' :: r =>
          let body := r.takeWhile urlBodyChar
          if body = [] then none
          else some ('h' :: 't' :: 't' :: 'p' :: ':' :: '/' :: '/' :: body,
            r.dropWhile urlBodyChar)
      | _ => none
  | _ => none

/-- re.findall scan: leftmost matches, resuming after each match.  The
    fuel argument bounds the scan by the text length; every step consumes
    at least one character, so the bound is never hit. -/
def scanUrls : Nat → List Char → List String
  | 0, _ => []
  | _ + 1, [] => []
  | fuel + 1, c :: rest =>
      match matchUrlAt (c :: rest) with
      | some (u, rest2) => String.mk u :: scanUrls fuel rest2
      | none => scanUrls fuel rest

/-- Trailing punctuation stripped from each URL: the Python literal is
    a close parenthesis, period, comma, semicolon, double quote and
    single quote. -/
def urlStripChars : List Char := [')', '.', ',', ';', '"', '\'']

/-- EmailLinkNode._extract_urls. -/
def extract_urls (text : String) : List String :=
  let urls := scanUrls text.data.length text.data
  let cleaned := urls.filterMap (fun u =>
    if isPrefixL "http://".data u.data || isPrefixL "https://".data u.data
    then some (String.mk (rstripSet urlStripChars u.data))
    else none)
  dedupKeepFirst cleaned

/-! ## Claim C3: text-list harvesting -/

/-- Modelled from the spec: the Link Harvester text-list mode is present
    in the specification but absent from the sources under src (only the
    mailbox mode of EmailLinkNode.execute is there).  Per the spec, each
    blob is scanned with the URL-matching pattern (the source function
    extract_urls); for each URL the store is consulted: a found record is
    reused (with its missing subject backfilled), a missing one is
    created with the given subject label. -/
def harvestOneTextUrl (label : String) (db : PaperDB)
    (papers : List AIPaper) (url : String) : PaperDB × List AIPaper :=
  match find_by_url db url with
  | some existing =>
      if existing.subject = none then
        match existing.id with
        | some pid =>
            (update_fields db pid (subjectOnlyMap (some label)),
              papers ++ [{ existing with subject := some label }])
        | none => (db, papers ++ [existing])
      else (db, papers ++ [existing])
  | none =>
      let res := insert_paper db { freshPaper url with subject := some label }
      (res.1, papers ++
        [{ freshPaper url with id := some res.2, subject := some label }])

/-- Modelled from the spec: text-list mode over the URLs of one blob. -/
def harvestUrlList (label : String) : PaperDB → List AIPaper → List String →
    PaperDB × List AIPaper
  | db, papers, [] => (db, papers)
  | db, papers, u :: rest =>
      let step := harvestOneTextUrl label db papers u
      harvestUrlList label step.1 step.2 rest

/-- Modelled from the spec: text-list mode of the Link Harvester over a
    list of raw text blobs with one topic label. -/
def harvestTextList (db : PaperDB) (texts : List String) (label : String) :
    PaperDB × List AIPaper :=
  texts.foldl (fun acc t => harvestUrlList label acc.1 acc.2 (extract_urls t))
    (db, [])

/-- The two URLs of the C3 scenario blob. -/
def c3blob : String :=
  "See https://arxiv.org/abs/2401.01234 and https://arxiv.org/pdf/2401.01234.pdf"

def c3url1 : String := "https://arxiv.org/abs/2401.01234"

def c3url2 : String := "https://arxiv.org/pdf/2401.01234.pdf"

/-- Record created by the text-list mode for a fresh URL. -/
def specRow (u label : String) (n : Nat) : AIPaper :=
  { freshPaper u with id := some n, subject := some label }

/-- Effect of one text-list step on a URL that is not yet stored. -/
theorem harvestOne_not_found {db : PaperDB} {u : String} (label : String)
    (papers : List AIPaper) (h : find_by_url db u = none) :
    harvestOneTextUrl label db papers u =
      ({ rows := db.rows ++ [specRow u label db.nextId],
         nextId := db.nextId + 1 },
       papers ++ [specRow u label db.nextId]) := by
  unfold harvestOneTextUrl
  rw [h]
  rfl

/-- List.find? on a singleton whose element does not match. -/
theorem find?_singleton_none {r : AIPaper} {u : String} (h : r.urlLink ≠ u) :
    List.find? (fun x => decide (x.urlLink = u)) [r] = none := by
  rw [List.find?_cons_of_neg _ (by simpa using h)]
  exact List.find?_nil

/-- Store after the first C3 insertion. -/
def c3db1 (db : PaperDB) : PaperDB :=
  { rows := db.rows ++ [specRow c3url1 "fintech" db.nextId],
    nextId := db.nextId + 1 }

/-- Store after the second C3 insertion. -/
def c3db2 (db : PaperDB) : PaperDB :=
  { rows := (c3db1 db).rows ++ [specRow c3url2 "fintech" (db.nextId + 1)],
    nextId := db.nextId + 2 }

/-- C3: in text-list mode, the C3 scenario blob with topic label fintech,
    starting from a store containing neither URL, creates exactly two new
    records, one per extracted URL, each carrying subject fintech, and
    afterwards each is returned by find_by_url on its exact urlLink. -/
theorem text_list_two_records (db : PaperDB)
    (h1 : find_by_url db c3url1 = none)
    (h2 : find_by_url db c3url2 = none) :
    ((harvestTextList db [c3blob] "fintech").1.rows.length
        = db.rows.length + 2) ∧
    ((harvestTextList db [c3blob] "fintech").2 =
        [specRow c3url1 "fintech" db.nextId,
         specRow c3url2 "fintech" (db.nextId + 1)]) ∧
    (∃ r1, find_by_url (harvestTextList db [c3blob] "fintech").1 c3url1
          = some r1 ∧
        r1.urlLink = c3url1 ∧ r1.subject = some "fintech" ∧
        r1.id = some db.nextId) ∧
    (∃ r2, find_by_url (harvestTextList db [c3blob] "fintech").1 c3url2
          = some r2 ∧
        r2.urlLink = c3url2 ∧ r2.subject = some "fintech" ∧
        r2.id = some (db.nextId + 1)) := by
  have hextract : extract_urls c3blob = [c3url1, c3url2] := by decide
  have hneq : c3url1 ≠ c3url2 := by decide
  have hrun : harvestTextList db [c3blob] "fintech" =
      harvestUrlList "fintech" db [] [c3url1, c3url2] := by
    show harvestUrlList "fintech" db [] (extract_urls c3blob) = _
    rw [hextract]
  have h1' : db.rows.find? (fun r => decide (r.urlLink = c3url1)) = none := h1
  have h2' : db.rows.find? (fun r => decide (r.urlLink = c3url2)) = none := h2
  have hs1 : harvestOneTextUrl "fintech" db [] c3url1 =
      (c3db1 db, [specRow c3url1 "fintech" db.nextId]) := by
    rw [harvestOne_not_found "fintech" [] h1]
    rfl
  -- the second URL is still absent after the first insertion
  have hfind2 : find_by_url (c3db1 db) c3url2 = none := by
    unfold find_by_url c3db1
    rw [find_append_none h2']
    exact find?_singleton_none hneq
  have hs2 : harvestOneTextUrl "fintech" (c3db1 db)
      [specRow c3url1 "fintech" db.nextId] c3url2 =
      (c3db2 db, [specRow c3url1 "fintech" db.nextId,
                  specRow c3url2 "fintech" (db.nextId + 1)]) := by
    rw [harvestOne_not_found "fintech" _ hfind2]
    rfl
  have hfinal : harvestTextList db [c3blob] "fintech" =
      (c3db2 db, [specRow c3url1 "fintech" db.nextId,
                  specRow c3url2 "fintech" (db.nextId + 1)]) := by
    rw [hrun]
    show harvestUrlList "fintech"
        (harvestOneTextUrl "fintech" db [] c3url1).1
        (harvestOneTextUrl "fintech" db [] c3url1).2 [c3url2] = _
    rw [hs1]
    show harvestUrlList "fintech"
        (harvestOneTextUrl "fintech" (c3db1 db)
          [specRow c3url1 "fintech" db.nextId] c3url2).1
        (harvestOneTextUrl "fintech" (c3db1 db)
          [specRow c3url1 "fintech" db.nextId] c3url2).2 [] = _
    rw [hs2]
    rfl
  refine ⟨?_, ?_, ?_, ?_⟩
  · rw [hfinal]
    simp [c3db2, c3db1]
  · rw [hfinal]
  · refine ⟨specRow c3url1 "fintech" db.nextId, ?_, rfl, rfl, rfl⟩
    rw [hfinal]
    unfold find_by_url c3db2 c3db1
    rw [List.append_assoc, find_append_none h1',
      List.singleton_append, List.find?_cons_of_pos _ (by simp [specRow, freshPaper])]
  · refine ⟨specRow c3url2 "fintech" (db.nextId + 1), ?_, rfl, rfl, rfl⟩
    rw [hfinal]
    unfold find_by_url c3db2 c3db1
    rw [List.append_assoc, find_append_none h2', List.singleton_append,
      List.find?_cons_of_neg _ (by simpa [specRow, freshPaper] using hneq),
      List.find?_cons_of_pos _ (by simp [specRow, freshPaper])]

/-- Witness for C3 on the empty store. -/
theorem text_list_two_records_witness :
    (harvestTextList { rows := [], nextId := 1 } [c3blob] "fintech").1.rows.length
      = 2 := by
  exact (text_list_two_records { rows := [], nextId := 1 }
    (by decide) (by decide)).1

/-! ## Document Converter (PdfToMarkdownNode._to_markdown)

    The Python code strips every line, preserves blanks, turns short
    all-uppercase lines into title-cased headings, turns the line at
    index 0 into a heading when it is short, and passes other lines
    through; the result is joined with newlines plus a trailing one. -/

/-- Loop body of _to_markdown over the stripped lines, carrying the
    0-based index as the Python enumerate does. -/
def mdLoop : Nat → List (List Char) → List (List Char)
  | _, [] => []
  | i, ln :: rest =>
      (if ln = [] then []
       else if ln.length < 120 && pyIsUpper ln then '#' :: ' ' :: pyTitle ln
       else if i == 0 && ln.length < 120 then '#' :: ' ' :: ln
       else ln) :: mdLoop (i + 1) rest

/-- PdfToMarkdownNode._to_markdown. -/
def to_markdown (text : String) : String :=
  if text = "" then "# 内容解析失败\n\n"
  else
    let lines := (pySplitlines text.data).map pyStrip
    String.intercalate "\n" ((mdLoop 0 lines).map String.mk) ++ "\n"

/-- The C4 claim text, taken literally: raw lines, blank preserved,
    short all-uppercase title-cased into a heading, and the very first
    non-empty short line promoted to a heading when no uppercase heading
    was found anywhere; other lines pass through unchanged. -/
def claimLineRule (firstNonEmpty : Option Nat) (hasUpper : Bool)
    (i : Nat) (ln : List Char) : List Char :=
  if ln = [] then []
  else if ln.length < 120 && pyIsUpper ln then '#' :: ' ' :: pyTitle ln
  else if firstNonEmpty = some i && !hasUpper && ln.length < 120 then
    '#' :: ' ' :: ln
  else ln

/-- Index of the first non-empty line. -/
def firstNonEmptyIdx (lines : List (List Char)) : Option Nat :=
  (lines.findIdx? (fun ln => ln ≠ []))

/-- Normalization exactly as claim C4 words it (for the refutation). -/
def to_markdown_claimed (text : String) : String :=
  if text = "" then "# 内容解析失败\n\n"
  else
    let lines := pySplitlines text.data
    let hasUpper := lines.any (fun ln =>
      ln ≠ [] && ln.length < 120 && pyIsUpper ln)
    let fne := firstNonEmptyIdx lines
    String.intercalate "\n"
      ((lines.mapIdx (fun i ln => claimLineRule fne hasUpper i ln)).map String.mk)
      ++ "\n"

theorem mdLoop_length (k : Nat) (lines : List (List Char)) :
    (mdLoop k lines).length = lines.length := by
  induction lines generalizing k with
  | nil => simp [mdLoop]
  | cons a rest ih => simp [mdLoop, ih]

theorem mdLoop_get (k : Nat) (lines : List (List Char)) (i : Nat)
    (hi : i < lines.length) (hi2 : i < (mdLoop k lines).length) :
    (mdLoop k lines)[i] =
      (if lines[i] = [] then []
       else if lines[i].length < 120 && pyIsUpper lines[i] then
         '#' :: ' ' :: pyTitle lines[i]
       else if (k + i) == 0 && lines[i].length < 120 then
         '#' :: ' ' :: lines[i]
       else lines[i]) := by
  induction lines generalizing k i with
  | nil => cases hi
  | cons a rest ih =>
      cases i with
      | zero => simp [mdLoop]
      | succ n =>
          have hn : n < rest.length := by simpa using hi
          have hn2 : n < (mdLoop (k + 1) rest).length := by
            rw [mdLoop_length]
            exact hn
          have hidx : k + 1 + n = k + (n + 1) := by omega
          have hstep : (mdLoop k (a :: rest))[n + 1] = (mdLoop (k + 1) rest)[n] := by
            simp [mdLoop]
          rw [hstep, ih (k + 1) n hn hn2, hidx]
          simp

/-- Counterexample to C4 as stated: on the text made of an empty line
    followed by the line abc, the code leaves abc untouched (only line
    index 0 can be promoted), while the claimed rule promotes abc, the
    first non-empty short line, to a heading. -/
theorem to_markdown_claim_counterexample :
    to_markdown "\nabc" = "\nabc\n" ∧
    to_markdown_claimed "\nabc" = "\n# abc\n" ∧
    to_markdown "\nabc" ≠ to_markdown_claimed "\nabc" := by
  refine ⟨by decide, by decide, by decide⟩

/-- C4 amended: each line is first stripped of surrounding whitespace;
    a line blank after stripping stays blank; a stripped non-empty line
    shorter than 120 characters that is all-uppercase becomes a
    top-level heading with the line title-cased; otherwise the line at
    index 0 only (not the first non-empty line, and regardless of
    uppercase headings elsewhere) becomes a top-level heading, untouched
    case, when shorter than 120 characters; every other line passes
    through as its stripped text; the lines are joined with newlines and
    a trailing newline (empty input yields a fixed failure heading). -/
theorem to_markdown_line_mapping (text : String) (h : text ≠ "") :
    (to_markdown text =
      String.intercalate "\n"
        ((mdLoop 0 ((pySplitlines text.data).map pyStrip)).map String.mk)
        ++ "\n") ∧
    ((mdLoop 0 ((pySplitlines text.data).map pyStrip)).length
      = ((pySplitlines text.data).map pyStrip).length) ∧
    (∀ i (hi : i < ((pySplitlines text.data).map pyStrip).length)
        (hi2 : i < (mdLoop 0 ((pySplitlines text.data).map pyStrip)).length),
      (mdLoop 0 ((pySplitlines text.data).map pyStrip))[i] =
        (let ln := ((pySplitlines text.data).map pyStrip)[i]
         if ln = [] then []
         else if ln.length < 120 && pyIsUpper ln then '#' :: ' ' :: pyTitle ln
         else if i == 0 && ln.length < 120 then '#' :: ' ' :: ln
         else ln)) := by
  refine ⟨by simp [to_markdown, h], mdLoop_length 0 _, ?_⟩
  intro i hi hi2
  rw [mdLoop_get 0 ((pySplitlines text.data).map pyStrip) i hi hi2]
  simp

/-- Witness for the amended C4 mapping at a concrete text. -/
theorem to_markdown_line_mapping_witness :
    to_markdown "\nabc" =
      String.intercalate "\n"
        ((mdLoop 0 ((pySplitlines "\nabc".data).map pyStrip)).map String.mk)
        ++ "\n" :=
  (to_markdown_line_mapping "\nabc" (by decide)).1

/-! ## os.path.splitext and the converter node (pdf_to_markdown_node.py) -/

/-- Rightmost index of a character in a list, as str.rfind. -/
def lastIdxOf (c : Char) (l : List Char) : Option Nat :=
  match l.reverse.findIdx? (fun x => x = c) with
  | some j => some (l.length - 1 - j)
  | none => none

/-- Root part of os.path.splitext on a posix path: cut at the last dot
    after the last slash, unless the basename up to that dot is all
    dots (leading dots carry no extension). -/
def splitextRoot (l : List Char) : List Char :=
  let sepIdx : Int := match lastIdxOf '/' l with
    | some i => (i : Int)
    | none => -1
  let dotIdx : Int := match lastIdxOf '.' l with
    | some i => (i : Int)
    | none => -1
  if sepIdx < dotIdx then
    let nameStart := (sepIdx + 1).toNat
    let leading := (l.drop nameStart).take (dotIdx.toNat - nameStart)
    if leading.any (fun c => c ≠ '.') then l.take dotIdx.toNat else l
  else l

/-- Update map used by PdfToMarkdownNode: only the mdLink column. -/
def mdOnlyMap (path : String) : FieldMap := { mdLink := some (some path) }

/-- One iteration of PdfToMarkdownNode.execute for one record.  The
    filesystem is a partial map from paths to contents, extractText is
    the PyPDFLoader oracle, and the final Bool reports whether text
    extraction ran.  A record whose id is absent makes int(p.id) raise;
    the per-record except block then keeps the record and store as they
    were. -/
def pdfToMdStep (extractText : String → String) (fs : String → Option String)
    (db : PaperDB) (p : AIPaper) :
    (String → Option String) × PaperDB × AIPaper × Bool :=
  match p.pdfLink with
  | none => (fs, db, p, false)
  | some pdf =>
      if pdf = "" then (fs, db, p, false)
      else
        match fs pdf with
        | none => (fs, db, p, false)
        | some _ =>
            let mdPath := String.mk (splitextRoot pdf.data) ++ ".md"
            match fs mdPath with
            | some _ =>
                match p.id with
                | none => (fs, db, p, false)
                | some pid =>
                    (fs, update_fields db pid (mdOnlyMap mdPath),
                     { p with mdLink := some mdPath }, false)
            | none =>
                let md := to_markdown (extractText pdf)
                let fs2 := fun q => if q = mdPath then some md else fs q
                match p.id with
                | none => (fs2, db, p, true)
                | some pid =>
                    (fs2, update_fields db pid (mdOnlyMap mdPath),
                     { p with mdLink := some mdPath }, true)

/-- C9: re-running the converter on a record whose markdown file already
    exists does not invoke text extraction, changes no file (so the
    existing content is untouched), sets the in-memory mdLink to the
    existing path, and persists only mdLink: the matching row gets
    mdLink and nothing else, and other rows are unchanged. -/
theorem converter_rerun_idempotent (extractText : String → String)
    (fs : String → Option String) (db : PaperDB) (p : AIPaper)
    (pdf mdPath content : String) (pid : Nat)
    (hpdf : p.pdfLink = some pdf) (hne : pdf ≠ "")
    (hpdfExists : (fs pdf).isSome)
    (hmd : mdPath = String.mk (splitextRoot pdf.data) ++ ".md")
    (hmdExists : fs mdPath = some content)
    (hid : p.id = some pid) :
    ((pdfToMdStep extractText fs db p).1 = fs) ∧
    ((pdfToMdStep extractText fs db p).1 mdPath = some content) ∧
    ((pdfToMdStep extractText fs db p).2.2.2 = false) ∧
    ((pdfToMdStep extractText fs db p).2.2.1
        = { p with mdLink := some mdPath }) ∧
    ((pdfToMdStep extractText fs db p).2.1.rows.length = db.rows.length) ∧
    (∀ i (hi : i < db.rows.length)
        (hi2 : i < (pdfToMdStep extractText fs db p).2.1.rows.length),
      (db.rows[i].id ≠ some pid →
          (pdfToMdStep extractText fs db p).2.1.rows[i] = db.rows[i]) ∧
      (db.rows[i].id = some pid →
          (pdfToMdStep extractText fs db p).2.1.rows[i]
            = { db.rows[i] with mdLink := some mdPath })) := by
  obtain ⟨v, hv⟩ := Option.isSome_iff_exists.mp hpdfExists
  have hstep : pdfToMdStep extractText fs db p =
      (fs, update_fields db pid (mdOnlyMap mdPath),
       { p with mdLink := some mdPath }, false) := by
    simp only [pdfToMdStep, hpdf, if_neg hne, hv, ← hmd, hmdExists, hid]
  rw [hstep]
  refine ⟨rfl, hmdExists, rfl, rfl, by simp [update_fields], ?_⟩
  intro i hi hi2
  constructor
  · intro hne2
    simp [update_fields, hne2]
  · intro heq
    simp [update_fields, heq, applyFields, mdOnlyMap]

/-- Concrete record for the C9 witness. -/
def c9p : AIPaper where
  id := some 1
  urlLink := "https://a.example/x"
  pdfLink := some "d/x.pdf"
  mdLink := none
  summaryLink := none
  meta := none
  publishTime := none
  subject := none

/-- Concrete filesystem for the C9 witness: the pdf and its markdown
    rendering both exist. -/
def c9fs (q : String) : Option String :=
  if q = "d/x.pdf" then some "raw pdf bytes"
  else if q = "d/x.md" then some "# Old Heading\nbody"
  else none

/-- Concrete store for the C9 witness. -/
def c9db : PaperDB where
  rows := [c9p]
  nextId := 2

/-- Witness for C9: on the concrete record and filesystem, the re-run
    does not extract and keeps the markdown content. -/
theorem converter_rerun_idempotent_witness :
    ((pdfToMdStep (fun _ => "ignored") c9fs c9db c9p).2.2.2 = false) ∧
    ((pdfToMdStep (fun _ => "ignored") c9fs c9db c9p).1 "d/x.md"
        = some "# Old Heading\nbody") := by
  have h := converter_rerun_idempotent (fun _ => "ignored") c9fs c9db c9p
    "d/x.pdf" "d/x.md" "# Old Heading\nbody" 1
    (by decide) (by decide) (by decide) (by decide) (by decide) (by decide)
  exact ⟨h.2.2.1, h.2.1⟩

/-! ## Classifier (document_classify_node.py)

    Label selection parses the model response as a comma-separated list
    (ASCII or fullwidth comma), strips entries, keeps non-empty ones,
    and retains pool members without repetition; the execute loop then
    builds the update map for meta, subject and publishTime. -/

/-- re.split on the comma class: split at every ASCII or fullwidth
    comma, keeping empty parts. -/
def splitCommasGo (acc : List Char) : List Char → List (List Char)
  | [] => [acc.reverse]
  | c :: rest =>
      if c = ',' || c = '，' then acc.reverse :: splitCommasGo [] rest
      else splitCommasGo (c :: acc) rest

def splitCommas (l : List Char) : List (List Char) := splitCommasGo [] l

/-- Stripped non-empty parts of the response, in order. -/
def rawParts (resp : String) : List String :=
  (splitCommas resp.data).filterMap (fun part =>
    let t := pyStrip part
    if t = [] then none else some (String.mk t))

/-- Selection loop of _llm_select_subjects: keep a part when it belongs
    to the pool and is not yet selected. -/
def validLoop (pool : List String) : List String → List String → List String
  | acc, [] => acc
  | acc, s :: rest =>
      validLoop pool
        (if pool.contains s && !(acc.contains s) then acc ++ [s] else acc) rest

/-- DocumentClassifyNode._llm_select_subjects response parsing. -/
def parseSubjects (resp : String) (pool : List String) : List String :=
  validLoop pool [] (rawParts resp)

/-- Subject string chosen by DocumentClassifyNode.execute: the
    comma-joined selection, or the prior subject (empty string when the
    prior one is absent). -/
def subjectUpdate (selected : List String) (prior : Option String) : String :=
  if selected.isEmpty then prior.getD "" else String.intercalate "," selected

/-- Update map built by DocumentClassifyNode.execute: meta, subject and
    publishTime columns. -/
def classifyUpdates (p : AIPaper) (selected : List String)
    (metaStr : String) (pt : String) : FieldMap :=
  { meta := some (some metaStr),
    subject := some (some (subjectUpdate selected p.subject)),
    publishTime := some (if pt = "" then p.publishTime else some pt) }

/-- Structure of the selection loop: the result extends the accumulator
    by a subsequence of the input whose members all lie in the pool;
    every pool member of the input is selected or already accumulated;
    no duplicates appear. -/
theorem validLoop_spec (pool : List String) (raw : List String) :
    ∀ acc : List String, ∃ extra,
      validLoop pool acc raw = acc ++ extra ∧
      extra.Sublist raw ∧
      (∀ s ∈ extra, s ∈ pool) ∧
      (∀ s ∈ raw, s ∈ pool → (s ∈ acc ∨ s ∈ extra)) ∧
      (acc.Nodup → (acc ++ extra).Nodup) := by
  induction raw with
  | nil =>
      intro acc
      exact ⟨[], by simp [validLoop], List.Sublist.refl _, by simp, by simp, by simp⟩
  | cons s rest ih =>
      intro acc
      by_cases hc : pool.contains s && !(acc.contains s)
      · have hc' : s ∈ pool ∧ s ∉ acc := by simpa using hc
        obtain ⟨extra, he, hsub, hpool, hcompl, hnd⟩ := ih (acc ++ [s])
        refine ⟨s :: extra, ?_, ?_, ?_, ?_, ?_⟩
        · rw [validLoop, if_pos hc, he, List.append_assoc]
          rfl
        · exact hsub.cons₂ s
        · intro x hx
          rcases hx with _ | hx
          · exact hc'.1
          · exact hpool x (by assumption)
        · intro x hx hxp
          rcases hx with _ | hx
          · right; exact List.mem_cons_self _ _
          · rcases hcompl x (by assumption) hxp with h1 | h2
            · rcases List.mem_append.mp h1 with h3 | h4
              · exact Or.inl h3
              · right
                simpa using Or.inl (by simpa using h4)
            · exact Or.inr (List.mem_cons_of_mem _ h2)
        · intro hacc
          have hacc2 : (acc ++ [s]).Nodup := by
            rw [List.nodup_append]
            exact ⟨hacc, List.nodup_singleton s, by simpa using hc'.2⟩
          have := hnd hacc2
          rw [List.append_assoc] at this
          simpa using this
      · have hc' : s ∈ pool → s ∈ acc := by
          intro hp
          by_contra hs
          exact hc (by simp [hp, hs])
        obtain ⟨extra, he, hsub, hpool, hcompl, hnd⟩ := ih acc
        refine ⟨extra, ?_, hsub.cons s, hpool, ?_, hnd⟩
        · rw [validLoop, if_neg hc, he]
        · intro x hx hxp
          rcases hx with _ | hx
          · exact Or.inl (hc' hxp)
          · exact hcompl x (by assumption) hxp

/-- Record used by the C5 counterexample: its subject is absent. -/
def c5p : AIPaper where
  id := some 3
  urlLink := "https://a.example/y"
  pdfLink := none
  mdLink := some "d/y.md"
  summaryLink := none
  meta := none
  publishTime := none
  subject := none

/-- Counterexample to C5 as stated: when no label is selected the code
    does not leave the subject unchanged; a record whose subject was
    absent gets the empty string stored. -/
theorem classifier_subject_counterexample :
    parseSubjects "unrelated answer" ["fintech"] = [] ∧
    (applyFields c5p
        (classifyUpdates c5p (parseSubjects "unrelated answer" ["fintech"])
          "meta" "")).subject = some "" ∧
    c5p.subject = none ∧
    (applyFields c5p
        (classifyUpdates c5p (parseSubjects "unrelated answer" ["fintech"])
          "meta" "")).subject ≠ c5p.subject := by
  refine ⟨by decide, by decide, by decide, by decide⟩

/-- C5 amended: the classifier parses the response as a comma-separated
    list, retains only pool members, deduplicated preserving first
    occurrence order (the selection is a subsequence of the stripped
    parts and contains every pool member among them), and persists
    subject as the comma-joined selection; when no label is selected the
    stored subject is the prior subject string when present, and the
    empty string (not an absent value) when the prior subject is absent. -/
theorem classifier_subject_selection (resp : String) (pool : List String)
    (p : AIPaper) (metaStr pt : String) :
    (∀ s ∈ parseSubjects resp pool, s ∈ pool) ∧
    (parseSubjects resp pool).Nodup ∧
    (parseSubjects resp pool).Sublist (rawParts resp) ∧
    (∀ s ∈ rawParts resp, s ∈ pool → s ∈ parseSubjects resp pool) ∧
    (parseSubjects resp pool ≠ [] →
      (applyFields p (classifyUpdates p (parseSubjects resp pool) metaStr pt)).subject
        = some (String.intercalate "," (parseSubjects resp pool))) ∧
    (parseSubjects resp pool = [] → ∀ s, p.subject = some s →
      (applyFields p (classifyUpdates p (parseSubjects resp pool) metaStr pt)).subject
        = some s) ∧
    (parseSubjects resp pool = [] → p.subject = none →
      (applyFields p (classifyUpdates p (parseSubjects resp pool) metaStr pt)).subject
        = some "") := by
  obtain ⟨extra, he, hsub, hpool, hcompl, hnd⟩ :=
    validLoop_spec pool (rawParts resp) []
  have hps : parseSubjects resp pool = extra := by
    rw [parseSubjects, he]
    simp
  refine ⟨?_, ?_, ?_, ?_, ?_, ?_, ?_⟩
  · rw [hps]; exact hpool
  · rw [hps]
    have := hnd (by simp)
    simpa using this
  · rw [hps]; exact hsub
  · intro s hs hsp
    rw [hps]
    rcases hcompl s hs hsp with h1 | h2
    · simp at h1
    · exact h2
  · intro hne
    simp [applyFields, classifyUpdates, subjectUpdate,
      List.isEmpty_iff, hne]
  · intro hempty s hsubj
    simp [applyFields, classifyUpdates, subjectUpdate, hempty, hsubj]
  · intro hempty hsubj
    simp [applyFields, classifyUpdates, subjectUpdate, hempty, hsubj]

/-- Witness for the amended C5 at a concrete response and pool. -/
theorem classifier_subject_selection_witness :
    (applyFields c5p
        (classifyUpdates c5p (parseSubjects "fintech, agents, fintech" ["fintech", "agents"])
          "meta" "")).subject = some "fintech,agents" := by
  have h := (classifier_subject_selection "fintech, agents, fintech"
    ["fintech", "agents"] c5p "meta" "").2.2.2.2.1
  rw [h (by decide)]
  rfl

/-! ## Publish-time extraction (DocumentClassifyNode._extract_publish_time)

    The code first searches the text for four digits, a separator (dash,
    slash or dot), one or two digits, a separator, one or two digits,
    and on a match returns the zero-padded YYYY-MM-DD form; otherwise it
    searches for (19|20)dd and returns that 4-character match; otherwise
    it returns the empty string.  re.search scans positions left to
    right; the one-or-two-digit groups are greedy with backtracking. -/

def sepCh (c : Char) : Bool := c = '-' || c = '/' || c = '.'

/-- Day part d{1,2}, greedy, at the end of the date pattern. -/
def matchDay : List Char → Option (List Char)
  | d1 :: d2 :: _ =>
      if d1.isDigit then
        (if d2.isDigit then some [d1, d2] else some [d1])
      else none
  | [d1] => if d1.isDigit then some [d1] else none
  | [] => none

/-- Month part d{1,2} followed by a separator, greedy; a one-digit
    month is accepted when the second character is the separator. -/
def matchMonthSep : List Char → Option (List Char × List Char)
  | m1 :: m2 :: rest =>
      if m1.isDigit then
        if m2.isDigit then
          match rest with
          | s :: r => if sepCh s then some ([m1, m2], r) else none
          | [] => none
        else if sepCh m2 then some ([m1], rest) else none
      else none
  | _ => none

/-- Anchored match of the full date pattern; returns year, month and
    day digit groups. -/
def matchFullDateAt (cs : List Char) :
    Option (List Char × List Char × List Char) :=
  match cs with
  | a :: b :: c :: d :: s :: rest =>
      if a.isDigit && b.isDigit && c.isDigit && d.isDigit && sepCh s then
        match matchMonthSep rest with
        | some (m, r2) =>
            match matchDay r2 with
            | some day => some ([a, b, c, d], m, day)
            | none => none
        | none => none
      else none
  | _ => none

/-- re.search for the full date pattern: leftmost position wins. -/
def searchFullDate : List Char → Option (List Char × List Char × List Char)
  | [] => none
  | c :: rest =>
      match matchFullDateAt (c :: rest) with
      | some r => some r
      | none => searchFullDate rest

/-- Anchored match of (19|20)dd. -/
def matchYearAt : List Char → Option (List Char)
  | a :: b :: c :: d :: _ =>
      if ((a = '1' && b = '9') || (a = '2' && b = '0'))
          && c.isDigit && d.isDigit then
        some [a, b, c, d]
      else none
  | _ => none

/-- re.search for the bare-year pattern. -/
def searchYear : List Char → Option (List Char)
  | [] => none
  | c :: rest =>
      match matchYearAt (c :: rest) with
      | some r => some r
      | none => searchYear rest

/-- Python int on a digit string. -/
def digitsToNat (l : List Char) : Nat :=
  l.foldl (fun n c => n * 10 + (c.toNat - 48)) 0

/-- Python format 02d for the month and day groups. -/
def pad2 (n : Nat) : String :=
  if n < 10 then "0" ++ toString n else toString n

/-- Normalized date string produced on a full-date match. -/
def fmtDate (y m d : List Char) : String :=
  String.mk y ++ "-" ++ pad2 (digitsToNat m) ++ "-" ++ pad2 (digitsToNat d)

/-- DocumentClassifyNode._extract_publish_time. -/
def extract_publish_time (metaText : String) : String :=
  match searchFullDate metaText.data with
  | some (y, m, d) => fmtDate y m d
  | none =>
      match searchYear metaText.data with
      | some y => String.mk y
      | none => ""

/-- C8: publish-time extraction returns the first full date normalized
    to zero-padded YYYY-MM-DD, with priority over bare years; otherwise
    the first bare 4-digit year in the 1900 to 2099 range; otherwise the
    record keeps its prior (possibly absent) publishTime.  The concrete
    cases of the claim are included: a text containing 2024-03-05 yields
    2024-03-05 even with an earlier bare year, a one-digit month and day
    are zero padded, a text with only a bare 2021 yields 2021, and a
    dateless text leaves publishTime untouched. -/
theorem publish_time_extraction :
    (extract_publish_time "In 2021, dated 2024-03-05" = "2024-03-05") ∧
    (extract_publish_time "on 2024-3-5 ok" = "2024-03-05") ∧
    (extract_publish_time "...in 2021 we..." = "2021") ∧
    (extract_publish_time "no dates here" = "") ∧
    (∀ text y m d, searchFullDate (String.data text) = some (y, m, d) →
        extract_publish_time text = fmtDate y m d) ∧
    (∀ text y, searchFullDate (String.data text) = none →
        searchYear (String.data text) = some y →
        extract_publish_time text = String.mk y) ∧
    (∀ (text : String) (p : AIPaper) (sel : List String) (metaStr : String),
        extract_publish_time text = "" →
        (applyFields p (classifyUpdates p sel metaStr
            (extract_publish_time text))).publishTime = p.publishTime) ∧
    (∀ (text : String) (p : AIPaper) (sel : List String) (metaStr : String),
        extract_publish_time text ≠ "" →
        (applyFields p (classifyUpdates p sel metaStr
            (extract_publish_time text))).publishTime
          = some (extract_publish_time text)) := by
  refine ⟨by decide, by decide, by decide, by decide, ?_, ?_, ?_, ?_⟩
  · intro text y m d h
    rw [extract_publish_time, h]
  · intro text y h1 h2
    rw [extract_publish_time, h1, h2]
  · intro text p sel metaStr h
    simp [applyFields, classifyUpdates, h]
  · intro text p sel metaStr h
    simp [applyFields, classifyUpdates, h]

/-- Witness for C8 at concrete texts and a concrete record. -/
theorem publish_time_extraction_witness :
    ((applyFields c9p (classifyUpdates c9p [] "m"
        (extract_publish_time "no dates here"))).publishTime
      = c9p.publishTime) ∧
    ((applyFields c9p (classifyUpdates c9p [] "m"
        (extract_publish_time "...in 2021 we..."))).publishTime
      = some "2021") := by
  constructor
  · exact publish_time_extraction.2.2.2.2.2.2.1 "no dates here" c9p [] "m"
      (by decide)
  · have h := publish_time_extraction.2.2.2.2.2.2.2 "...in 2021 we..." c9p [] "m"
      (by decide)
    rw [h]
    exact congrArg some (by decide)

/-! ## Mailbox connection loop (EmailLinkNode, claim C6)

    The connection loop runs for attempt in range(5); each failed
    attempt sleeps min(2 ** attempt, 10) seconds; success breaks out.
    When no attempt succeeds the function logs and returns the empty
    content list.  EmailLinkNode.execute validates the credentials
    before calling the fetch routine and raises a ValueError when the
    account or the password is missing or empty. -/

/-- Environment for the IMAP phase: whether attempt i connects, and the
    contents produced by the search and fetch phase once connected. -/
structure ImapEnv where
  connect : Nat → Bool
  contents : List String

/-- Backoff sleep of a failed attempt: min(2 ** attempt, 10). -/
def backoff (i : Nat) : Nat := min (2 ^ i) 10

/-- Connection loop over the given attempt indices.  Returns the index
    of the successful attempt (if any) and the list of sleeps taken. -/
def connectGo (env : ImapEnv) : List Nat → Option Nat × List Nat
  | [] => (none, [])
  | i :: rest =>
      if env.connect i then (some i, [])
      else
        let r := connectGo env rest
        (r.1, backoff i :: r.2)

/-- EmailLinkNode._imap_fetch_email_contents: contents, number of
    connection attempts made, and sleeps taken. -/
def imap_fetch (env : ImapEnv) : List String × Nat × List Nat :=
  let r := connectGo env [0, 1, 2, 3, 4]
  match r.1 with
  | none => ([], 5, r.2)
  | some i => (env.contents, i + 1, r.2)

/-- Mailbox credentials of email_config as execute reads them. -/
structure EmailConfig where
  account : Option String
  password : Option String

/-- Credential validation and fetch dispatch of EmailLinkNode.execute
    (mailbox mode): the result and the number of connection attempts
    made. -/
def executeEmailLink (cfg : EmailConfig) (env : ImapEnv) :
    Except String (List String) × Nat :=
  let account := cfg.account.getD ""
  let password := cfg.password.getD ""
  if account = "" || password = "" then
    (Except.error "缺少 QQ 邮箱账号或授权码：请在 email_config 中提供 account/password", 0)
  else
    let r := imap_fetch env
    (Except.ok r.1, r.2.1)

theorem connectGo_some_mem (env : ImapEnv) :
    ∀ (l : List Nat) (i : Nat), (connectGo env l).1 = some i → i ∈ l := by
  intro l
  induction l with
  | nil => intro i h; simp [connectGo] at h
  | cons a rest ih =>
      intro i h
      by_cases hc : env.connect a
      · rw [connectGo, if_pos hc] at h
        simp at h
        simp [h]
      · rw [connectGo, if_neg hc] at h
        exact List.mem_cons_of_mem _ (ih i h)

theorem connectGo_delays (env : ImapEnv) :
    ∀ (l : List Nat) (d : Nat), d ∈ (connectGo env l).2 → ∃ i ∈ l, d = backoff i := by
  intro l
  induction l with
  | nil => intro d h; simp [connectGo] at h
  | cons a rest ih =>
      intro d h
      by_cases hc : env.connect a
      · rw [connectGo, if_pos hc] at h
        simp at h
      · rw [connectGo, if_neg hc] at h
        rcases h with _ | h
        · exact ⟨a, List.mem_cons_self _ _, rfl⟩
        · obtain ⟨i, hi, hd⟩ := ih d (by assumption)
          exact ⟨i, List.mem_cons_of_mem _ hi, hd⟩

/-- C6: mailbox-mode harvesting makes at most 5 connection attempts,
    each failed attempt sleeps an exponential backoff capped at 10
    seconds (the sleeps of a fully failed run are 1, 2, 4, 8, 10); when
    every attempt fails the fetch returns the empty result set without
    raising; and missing or empty credentials raise the configuration
    error immediately, before any connection attempt. -/
theorem mailbox_retry_policy (cfg : EmailConfig) (env : ImapEnv) :
    ((executeEmailLink cfg env).2 ≤ 5) ∧
    (∀ d ∈ (imap_fetch env).2.2, d ≤ 10) ∧
    ((∀ i, i < 5 → env.connect i = false) →
        imap_fetch env = ([], 5, [1, 2, 4, 8, 10])) ∧
    (cfg.account.getD "" ≠ "" → cfg.password.getD "" ≠ "" →
        (∀ i, i < 5 → env.connect i = false) →
        executeEmailLink cfg env = (Except.ok [], 5)) ∧
    ((cfg.account.getD "" = "" ∨ cfg.password.getD "" = "") →
        executeEmailLink cfg env =
          (Except.error "缺少 QQ 邮箱账号或授权码：请在 email_config 中提供 account/password", 0)) := by
  have hallfail : (∀ i, i < 5 → env.connect i = false) →
      imap_fetch env = ([], 5, [1, 2, 4, 8, 10]) := by
    intro h
    have h0 := h 0 (by norm_num)
    have h1 := h 1 (by norm_num)
    have h2 := h 2 (by norm_num)
    have h3 := h 3 (by norm_num)
    have h4 := h 4 (by norm_num)
    simp [imap_fetch, connectGo, h0, h1, h2, h3, h4, backoff]
  refine ⟨?_, ?_, hallfail, ?_, ?_⟩
  · unfold executeEmailLink
    by_cases hcred : cfg.account.getD "" = "" || cfg.password.getD "" = ""
    · simp [hcred]
    · simp only [hcred, Bool.false_eq_true, if_neg, if_false]
      cases hr : (connectGo env [0, 1, 2, 3, 4]).1 with
      | none => simp [imap_fetch, hr]
      | some i =>
          have hmem := connectGo_some_mem env [0, 1, 2, 3, 4] i hr
          have hle : i ≤ 4 := by
            have h5 : i = 0 ∨ i = 1 ∨ i = 2 ∨ i = 3 ∨ i = 4 := by
              simpa using hmem
            omega
          simp [imap_fetch, hr]
          omega
  · intro d hd
    have hd2 : d ∈ (connectGo env [0, 1, 2, 3, 4]).2 := by
      cases hr : (connectGo env [0, 1, 2, 3, 4]).1 with
      | none => simpa [imap_fetch, hr] using hd
      | some i => simpa [imap_fetch, hr] using hd
    obtain ⟨i, _, hdi⟩ := connectGo_delays env [0, 1, 2, 3, 4] d hd2
    rw [hdi]
    exact min_le_right _ _
  · intro ha hp hfail
    unfold executeEmailLink
    have : ¬(cfg.account.getD "" = "" || cfg.password.getD "" = "") := by
      simp [ha, hp]
    simp only [this, if_neg, if_false, Bool.false_eq_true]
    rw [hallfail hfail]
  · intro hcred
    unfold executeEmailLink
    have : (cfg.account.getD "" = "" || cfg.password.getD "" = "") := by
      rcases hcred with h | h <;> simp [h]
    simp [this]

/-- Witness for C6: failing connections with valid credentials yield the
    empty result in 5 attempts, and empty credentials fail fast. -/
theorem mailbox_retry_policy_witness :
    (executeEmailLink ⟨some "user", some "token"⟩
        ⟨fun _ => false, ["mail"]⟩ = (Except.ok [], 5)) ∧
    (executeEmailLink ⟨none, some "token"⟩ ⟨fun _ => false, ["mail"]⟩ =
        (Except.error "缺少 QQ 邮箱账号或授权码：请在 email_config 中提供 account/password", 0)) := by
  constructor
  · exact (mailbox_retry_policy ⟨some "user", some "token"⟩
      ⟨fun _ => false, ["mail"]⟩).2.2.2.1 (by decide) (by decide)
      (fun i _ => rfl)
  · exact (mailbox_retry_policy ⟨none, some "token"⟩
      ⟨fun _ => false, ["mail"]⟩).2.2.2.2 (Or.inl rfl)

/-! ## PDF validation (PdfFetchNode._validate_pdf)

    The code issues a HEAD request; on a response whose lowered
    Content-Type contains application/pdf it accepts.  Otherwise it
    issues a streamed GET; a raised status, a raised request or an empty
    stream fall to False, and otherwise the first chunk is accepted
    exactly when it starts with the 5-byte marker. -/

/-- HTTP outcomes seen by _validate_pdf for one URL.  headContentType is
    none when the HEAD request raises, and some ct with ct the optional
    Content-Type header otherwise.  firstChunk is none when the GET
    raises, has a bad status or yields no chunk, and some bytes with the
    first streamed chunk otherwise. -/
structure HttpEnv where
  headContentType : Option (Option String)
  firstChunk : Option (List Nat)

/-- The 5 bytes of the PDF magic marker. -/
def pdfMagic : List Nat := [37, 80, 68, 70, 45]

/-- PdfFetchNode._validate_pdf. -/
def validate_pdf (env : HttpEnv) : Bool :=
  let headOk :=
    match env.headContentType with
    | some ct => containsSub "application/pdf".data (toLowerL (ct.getD "").data)
    | none => false
  if headOk then true
  else
    match env.firstChunk with
    | some chunk => isPrefixL pdfMagic chunk
    | none => false

/-- C7: validation accepts every response whose Content-Type contains
    application/pdf, accepts every response whose first streamed chunk
    begins with the PDF marker even when the Content-Type is missing or
    wrong, and rejects every response that has neither a matching
    Content-Type nor a chunk starting with the marker. -/
theorem validate_pdf_spec (env : HttpEnv) :
    (∀ ct, env.headContentType = some ct →
        containsSub "application/pdf".data (toLowerL (ct.getD "").data) = true →
        validate_pdf env = true) ∧
    (∀ chunk, env.firstChunk = some chunk →
        isPrefixL pdfMagic chunk = true →
        validate_pdf env = true) ∧
    ((∀ ct, env.headContentType = some ct →
        containsSub "application/pdf".data (toLowerL (ct.getD "").data) = false) →
      (∀ chunk, env.firstChunk = some chunk →
          isPrefixL pdfMagic chunk = false) →
      validate_pdf env = false) := by
  refine ⟨?_, ?_, ?_⟩
  · intro ct hct hc
    simp [validate_pdf, hct, hc]
  · intro chunk hchunk hpre
    unfold validate_pdf
    cases hh : env.headContentType with
    | none => simp [hchunk, hpre]
    | some ct =>
        by_cases hc : containsSub "application/pdf".data (toLowerL (ct.getD "").data)
        · simp [hc]
        · simp [hc, hchunk, hpre]
  · intro hhead hchunk
    unfold validate_pdf
    cases hh : env.headContentType with
    | none =>
        cases hf : env.firstChunk with
        | none => simp
        | some chunk => simp [hchunk chunk hf]
    | some ct =>
        have := hhead ct hh
        cases hf : env.firstChunk with
        | none => simp [this]
        | some chunk => simp [this, hchunk chunk hf]

/-- Witness for C7: a pdf Content-Type accepts; a marker-led chunk with
    a wrong Content-Type accepts; neither rejects. -/
theorem validate_pdf_spec_witness :
    (validate_pdf ⟨some (some "Application/PDF; charset=binary"), none⟩ = true) ∧
    (validate_pdf ⟨some (some "text/html"),
        some [37, 80, 68, 70, 45, 49]⟩ = true) ∧
    (validate_pdf ⟨some none, some [60, 104, 116, 109, 108]⟩ = false) := by
  refine ⟨?_, ?_, ?_⟩
  · exact (validate_pdf_spec ⟨some (some "Application/PDF; charset=binary"), none⟩).1
      (some "Application/PDF; charset=binary") rfl (by decide)
  · exact (validate_pdf_spec ⟨some (some "text/html"),
      some [37, 80, 68, 70, 45, 49]⟩).2.1 [37, 80, 68, 70, 45, 49] rfl (by decide)
  · exact (validate_pdf_spec ⟨some none, some [60, 104, 116, 109, 108]⟩).2.2
      (fun ct hct => by
        cases hct
        decide)
      (fun chunk hchunk => by
        cases hchunk
        decide)

/-! ## Per-record error isolation (claim C10)

    Both PdfFetchNode.execute and DocumentSummaryNode.execute iterate
    the record list with a try block per record; an exception appends
    the record unchanged and the loop continues.  The fallible
    operations are abstracted as Except-valued oracles; the pure
    candidate and validation helpers are embedded from the source. -/

/-- End-or-separator test of the dot-pdf pattern: end of string, a hash
    or a question mark after .pdf. -/
def dotPdfEnd : List Char → Bool
  | '.' :: 'p' :: 'd' :: 'f' :: rest =>
      match rest with
      | [] => true
      | c :: _ => c = '#' || c = '?'
  | _ => false

/-- re.search for the dot-pdf pattern. -/
def searchDotPdf : List Char → Bool
  | [] => false
  | c :: rest => dotPdfEnd (c :: rest) || searchDotPdf rest

/-- Function _is_pdf_url of pdf_fetch_node.py (on the lowered URL). -/
def is_pdf_url (url : String) : Bool :=
  let u := toLowerL url.data
  searchDotPdf u || containsSub "/pdf".data u ||
    containsSub "type=pdf".data u || containsSub "format=pdf".data u

/-- Oracles for one PdfFetchNode record: file existence, candidate
    extraction (total: the helper catches its own exceptions), candidate
    validation (total), the streamed download and the store update (both
    fallible). -/
structure PdfEnv where
  fileExists : String → Bool
  findCandidates : String → List String
  validate : String → Bool
  download : String → Except String String
  dbUpdate : Nat → Except String Unit

/-- Body of the per-record try block of PdfFetchNode.execute. -/
def pdfFetchBody (env : PdfEnv) (p : AIPaper) : Except String AIPaper :=
  if (match p.pdfLink with
      | some s => s ≠ "" && env.fileExists s
      | none => false) then
    Except.ok p
  else
    let candidates :=
      if is_pdf_url p.urlLink then [p.urlLink]
      else env.findCandidates p.urlLink
    match candidates.find? env.validate with
    | none => Except.ok p
    | some target =>
        match env.download target with
        | Except.error e => Except.error e
        | Except.ok savePath =>
            match p.id with
            | none => Except.error "int of None"
            | some pid =>
                match env.dbUpdate pid with
                | Except.error e => Except.error e
                | Except.ok _ => Except.ok { p with pdfLink := some savePath }

/-- Oracles for one DocumentSummaryNode record: the filesystem, the
    summary file write (fallible open or write) and the store update.
    The summary text itself is computed by total helpers and is not
    observed here. -/
structure SummaryEnv where
  fs : String → Option String
  write : String → Except String Unit
  dbUpdate : Nat → Except String Unit

/-- Body of the per-record try block of DocumentSummaryNode.execute. -/
def summaryBody (env : SummaryEnv) (p : AIPaper) : Except String AIPaper :=
  match p.mdLink with
  | none => Except.ok p
  | some md =>
      if md = "" then Except.ok p
      else if (env.fs md).isNone then Except.ok p
      else
        let summaryPath := String.mk (splitextRoot md.data) ++ ".summary.md"
        let step1 : Except String Unit :=
          if (env.fs summaryPath).isNone then env.write summaryPath
          else Except.ok ()
        match step1 with
        | Except.error e => Except.error e
        | Except.ok _ =>
            match p.id with
            | none => Except.ok { p with summaryLink := some summaryPath }
            | some pid =>
                match env.dbUpdate pid with
                | Except.error e => Except.error e
                | Except.ok _ => Except.ok { p with summaryLink := some summaryPath }

/-- Per-record except handler: the body result on success, the
    untouched record on an exception. -/
def recover (p : AIPaper) : Except String AIPaper → AIPaper
  | Except.ok q => q
  | Except.error _ => p

@[simp] theorem recover_ok (p q : AIPaper) :
    recover p (Except.ok q) = q := rfl

@[simp] theorem recover_error (p : AIPaper) (e : String) :
    recover p (Except.error e) = p := rfl

/-- The updated-list loop shared by both execute methods: per record,
    append the body result on success and the untouched record on an
    exception. -/
def stageLoop (body : AIPaper → Except String AIPaper)
    (papers : List AIPaper) : List AIPaper :=
  papers.foldl (fun acc p => acc ++ [recover p (body p)]) []

/-- PdfFetchNode.execute over the record list. -/
def pdf_fetch_execute (env : PdfEnv) (papers : List AIPaper) : List AIPaper :=
  stageLoop (pdfFetchBody env) papers

/-- DocumentSummaryNode.execute over the record list. -/
def document_summary_execute (env : SummaryEnv) (papers : List AIPaper) :
    List AIPaper :=
  stageLoop (summaryBody env) papers

theorem stageLoop_go (body : AIPaper → Except String AIPaper)
    (papers : List AIPaper) :
    ∀ acc : List AIPaper,
      papers.foldl (fun acc p => acc ++ [recover p (body p)]) acc
      = acc ++ papers.map (fun p => recover p (body p)) := by
  induction papers with
  | nil => intro acc; simp
  | cons p rest ih =>
      intro acc
      rw [List.foldl_cons, ih, List.map_cons, List.append_assoc]
      rfl

theorem stageLoop_eq_map (body : AIPaper → Except String AIPaper)
    (papers : List AIPaper) :
    stageLoop body papers = papers.map (fun p => recover p (body p)) := by
  unfold stageLoop
  rw [stageLoop_go body papers []]
  rfl

/-- C10: for both the PDF stage and the summary stage, the output list
    has exactly one entry per input record, in input order; a record
    whose body raises is passed downstream unchanged, and a record whose
    body completes becomes the completed record — a failing record never
    aborts the batch. -/
theorem per_record_failure_isolated (envP : PdfEnv) (psP : List AIPaper)
    (envS : SummaryEnv) (psS : List AIPaper) :
    ((pdf_fetch_execute envP psP).length = psP.length) ∧
    (∀ i (hi : i < psP.length)
        (hi2 : i < (pdf_fetch_execute envP psP).length),
      (∀ e, pdfFetchBody envP psP[i] = Except.error e →
          (pdf_fetch_execute envP psP)[i] = psP[i]) ∧
      (∀ q, pdfFetchBody envP psP[i] = Except.ok q →
          (pdf_fetch_execute envP psP)[i] = q)) ∧
    ((document_summary_execute envS psS).length = psS.length) ∧
    (∀ j (hj : j < psS.length)
        (hj2 : j < (document_summary_execute envS psS).length),
      (∀ e, summaryBody envS psS[j] = Except.error e →
          (document_summary_execute envS psS)[j] = psS[j]) ∧
      (∀ q, summaryBody envS psS[j] = Except.ok q →
          (document_summary_execute envS psS)[j] = q)) := by
  have hmapP := stageLoop_eq_map (pdfFetchBody envP) psP
  have hmapS := stageLoop_eq_map (summaryBody envS) psS
  refine ⟨?_, ?_, ?_, ?_⟩
  · rw [pdf_fetch_execute, hmapP, List.length_map]
  · intro i hi hi2
    constructor
    · intro e he
      have hcell : (pdf_fetch_execute envP psP)[i]
          = recover psP[i] (pdfFetchBody envP psP[i]) := by
        simp [pdf_fetch_execute, hmapP]
      rw [hcell, he, recover_error]
    · intro q hq
      have hcell : (pdf_fetch_execute envP psP)[i]
          = recover psP[i] (pdfFetchBody envP psP[i]) := by
        simp [pdf_fetch_execute, hmapP]
      rw [hcell, hq, recover_ok]
  · rw [document_summary_execute, hmapS, List.length_map]
  · intro j hj hj2
    constructor
    · intro e he
      have hcell : (document_summary_execute envS psS)[j]
          = recover psS[j] (summaryBody envS psS[j]) := by
        simp [document_summary_execute, hmapS]
      rw [hcell, he, recover_error]
    · intro q hq
      have hcell : (document_summary_execute envS psS)[j]
          = recover psS[j] (summaryBody envS psS[j]) := by
        simp [document_summary_execute, hmapS]
      rw [hcell, hq, recover_ok]

/-- Record whose download fails in the C10 witness. -/
def c10p : AIPaper where
  id := some 7
  urlLink := "https://x.example/a.pdf"
  pdfLink := none
  mdLink := none
  summaryLink := none
  meta := none
  publishTime := none
  subject := none

/-- Environment whose download always raises. -/
def c10envP : PdfEnv where
  fileExists := fun _ => false
  findCandidates := fun _ => []
  validate := fun _ => true
  download := fun _ => Except.error "network failure"
  dbUpdate := fun _ => Except.ok ()

/-- Trivial summary environment for the C10 witness. -/
def c10envS : SummaryEnv where
  fs := fun _ => none
  write := fun _ => Except.ok ()
  dbUpdate := fun _ => Except.ok ()

/-- Witness for C10: the failing record passes through unchanged and the
    batch keeps one entry. -/
theorem per_record_failure_isolated_witness :
    ((pdf_fetch_execute c10envP [c10p]).length = 1) ∧
    ((pdf_fetch_execute c10envP [c10p]).get
        ⟨0, by rw [(per_record_failure_isolated c10envP [c10p] c10envS []).1]; decide⟩
      = c10p) := by
  have h := per_record_failure_isolated c10envP [c10p] c10envS []
  refine ⟨h.1, ?_⟩
  have hbody : pdfFetchBody c10envP c10p = Except.error "network failure" := rfl
  exact (h.2.1 0 (by decide)
    (by rw [h.1]; decide)).1 "network failure" hbody

end Scrapegraph
